import Mathlib

/-!
Verification of the stet-tui reactive runtime against its natural-language
specification.  Each section embeds one component of the Go source as Lean
definitions (pure state-transition functions; effects as explicit lists of
effect-request values) and proves the specified properties about them.
-/

set_option linter.unusedVariables false

namespace StetTui

/-! ## Journal page: debounced autosave (src/pages/journal.go) -/

/-- State of the Journal page relevant to the debounced-save protocol.
Mirrors the fields of `JournalPage`: the textarea content, the debounce
version counter, the last confirmed save, the pending-save flag and the
entry id of today's journal row. -/
structure JournalState where
  content : String
  debounceVersion : Nat
  lastSavedContent : String
  pendingSave : Bool
  entryID : String
  deriving Repr, DecidableEq

/-- Messages handled by `JournalPage.Update` that drive the debounce
protocol.  `edit c` stands for a keystroke in vim-insert mode after which
the textarea's value is `c` (`handleVimInsertMode` pass-through branch);
`debounceTick v` is `journalDebounceTickMsg{version: v}`; `saved` and
`saveFailed` are `journalEntrySavedMsg` / `journalEntrySaveFailedMsg`. -/
inductive JournalMsg where
  | edit (newContent : String)
  | debounceTick (version : Nat)
  | saved
  | saveFailed
  deriving Repr, DecidableEq

/-- Effect requests returned by the journal update function:
`startDebounce v` is `startDebounceCmd(v)` (a timer that will deliver
`debounceTick v`), `save id c` is `saveJournalEntryCmd(db, id, c)`. -/
inductive JournalEffect where
  | startDebounce (version : Nat)
  | save (entryID : String) (content : String)
  deriving Repr, DecidableEq

/-- One step of `JournalPage.Update` for the debounce-relevant messages.

* `edit c`: `handleVimInsertMode` forwards the key to the textarea; if the
  value changed it increments `debounceVersion` and issues
  `startDebounceCmd(p.debounceVersion)` with the incremented counter.
* `debounceTick v`: the `journalDebounceTickMsg` case — persist only when
  `msg.version == p.debounceVersion && p.textarea.Value() != p.lastSavedContent`,
  otherwise do nothing.
* `saved` / `saveFailed`: clear `pendingSave`; a successful save records the
  current textarea value as the last confirmed save. -/
def journalUpdate (p : JournalState) : JournalMsg → JournalState × List JournalEffect
  | .edit c =>
      if c ≠ p.content then
        ({ p with content := c, debounceVersion := p.debounceVersion + 1 },
         [.startDebounce (p.debounceVersion + 1)])
      else
        (p, [])
  | .debounceTick v =>
      if v = p.debounceVersion ∧ p.content ≠ p.lastSavedContent then
        ({ p with pendingSave := true }, [.save p.entryID p.content])
      else
        (p, [])
  | .saved =>
      ({ p with pendingSave := false, lastSavedContent := p.content }, [])
  | .saveFailed =>
      ({ p with pendingSave := false }, [])

/-- Process a sequence of messages, collecting all issued effects in order. -/
def journalRun (p : JournalState) : List JournalMsg → JournalState × List JournalEffect
  | [] => (p, [])
  | m :: ms =>
      let r1 := journalUpdate p m
      let r2 := journalRun r1.1 ms
      (r2.1, r1.2 ++ r2.2)

/-- The persistence writes among a list of issued effects. -/
def saveWrites (es : List JournalEffect) : List JournalEffect :=
  es.filter fun e => match e with
    | .save _ _ => true
    | _ => false

/-! ## OAuth token lifecycle (src/oura_auth.go, src/clients/planta.go) -/

/-- An OAuth credential record (`OuraTokens` / `PlantaTokens`).  Time is
modelled in integer seconds; `expiresAt` is the `ExpiresAt` field. -/
structure Tokens where
  accessToken : String
  refreshToken : String
  expiresAt : Int
  deriving Repr, DecidableEq

/-- Five minutes, in seconds — the expiry skew used by both integrations. -/
def expirySkew : Int := 5 * 60

/-- Go `OuraTokens.IsExpired` / `PlantaTokens.IsExpired`: true when the access
token is empty or `time.Now().Add(5*time.Minute).After(t.ExpiresAt)`,
i.e. when `now + skew` is strictly after `expiresAt`. -/
def isExpired (t : Tokens) (now : Int) : Bool :=
  t.accessToken = "" ∨ now + expirySkew > t.expiresAt

/-- The spec's §3 validity rule, taken verbatim from its words for the
refinement comparison of claim C2: "a credential is considered usable only
if `now + skew < expires_at`", read as a characterisation of usability. -/
def specUsable (t : Tokens) (now : Int) : Bool :=
  now + expirySkew < t.expiresAt

/-- Outcome of `LoadTokens`: the token file is absent (`nil, nil`), holds a
record, or fails to read/parse (`nil, err`). -/
inductive LoadResult where
  | noFile
  | fileTokens (t : Tokens)
  | ioError
  deriving Repr, DecidableEq

/-- Go `GetValidTokens` for both integrations (the two Go functions are
line-for-line identical).  The network outcome of `RefreshTokens` is a
parameter: `some nt` means the refresh endpoint succeeded and produced
`nt` (which `RefreshTokens` saves to the store before returning), `none`
means it failed.  The result mirrors the Go pair `(*Tokens, error)` as an
`Except`: `.error` for a non-nil error, `.ok none` for the `(nil, nil)`
"no token, re-authenticate" outcome.  The second component records the
token written to the store during the call (`GetValidTokens` writes only
through a successful `RefreshTokens`, whose `SaveTokens` persists the new
record); `none` means the store was left untouched. -/
def getValidTokens (load : LoadResult) (now : Int) (refresh : Option Tokens) :
    Except String (Option Tokens) × Option Tokens :=
  match load with
  | .ioError => (.error "failed to read tokens", none)
  | .noFile => (.ok none, none)
  | .fileTokens t =>
      if isExpired t now then
        match refresh with
        | some nt => (.ok (some nt), some nt)
        | none => (.ok none, none)
      else
        (.ok (some t), none)

/-! ## API clients: retry-once-on-401 and status classification
(src/unnamed/part_003 = Oura client, src/clients/planta.go) -/

/-- Outcome of one authenticated API call, mirroring the error branches of
the Go client methods.  `errForbidden` carries the Oura client's message
"subscription expired - Oura data not available"; `errRateLimited` carries
"rate limited - please wait"; `errStatus n` is the generic
"API request failed with status: n". -/
inductive ApiOutcome where
  | ok
  | errRefreshFailed
  | errForbidden
  | errRateLimited
  | errStatus (code : Nat)
  deriving Repr, DecidableEq

/-- Status classification of `OuraClient.GetTodayReadiness` (and
`GetTodayHeartRate`), applied to the response that survives the 401
handling: 403 and 429 get dedicated error messages, any other non-200 is
the generic status error. -/
def ouraClassify (status : Nat) : ApiOutcome :=
  if status = 403 then .errForbidden
  else if status = 429 then .errRateLimited
  else if status ≠ 200 then .errStatus status
  else .ok

/-- Status classification of `PlantaClient.GetAllPlants`: any non-200
response is the generic status error — 403 and 429 are not distinguished. -/
def plantaClassify (status : Nat) : ApiOutcome :=
  if status ≠ 200 then .errStatus status else .ok

/-- Status classification of `PlantaClient.CompleteAction`: 204 and 200
succeed, anything else is the generic status error. -/
def plantaCompleteClassify (status : Nat) : ApiOutcome :=
  if status ≠ 204 ∧ status ≠ 200 then .errStatus status else .ok

/-- The shared 401 policy of all four client methods, parameterised by the
final status classification.  `first` is the status of the initial
request; on 401 the client calls `RefreshTokens` (success/failure is the
`refreshOk` parameter), and on success re-issues the request exactly once
(`second` is that response's status).  The second component counts HTTP
requests actually issued. -/
def callWith401Retry (classify : Nat → ApiOutcome) (first : Nat)
    (refreshOk : Bool) (second : Nat) : ApiOutcome × Nat :=
  if first = 401 then
    if refreshOk then (classify second, 2)
    else (.errRefreshFailed, 1)
  else (classify first, 1)

/-- Request flow of `OuraClient.GetTodayReadiness`. -/
def ouraCall (first : Nat) (refreshOk : Bool) (second : Nat) : ApiOutcome × Nat :=
  callWith401Retry ouraClassify first refreshOk second

/-- Request flow of `PlantaClient.GetAllPlants` (one page). -/
def plantaCall (first : Nat) (refreshOk : Bool) (second : Nat) : ApiOutcome × Nat :=
  callWith401Retry plantaClassify first refreshOk second

/-- Request flow of `PlantaClient.CompleteAction`. -/
def plantaCompleteCall (first : Nat) (refreshOk : Bool) (second : Nat) : ApiOutcome × Nat :=
  callWith401Retry plantaCompleteClassify first refreshOk second

/-! ## Optimistic toggles and rollback
(src/unnamed/part_004 = Today page, src/pages/types.go = History page) -/

/-- Go `Task` from the Today page: a to-do item with its completion flag. -/
structure Task where
  id : String
  title : String
  description : String
  completed : Bool
  deriving Repr, DecidableEq

/-- Go `Task.ToggleCompleted`: flip the completion flag. -/
def Task.toggleCompleted (t : Task) : Task :=
  { t with completed := !t.completed }

/-- Go `sortTasksByCompletion`: `sort.SliceStable` with comparator
`!tasks[i].completed && tasks[j].completed`, i.e. a stable partition
moving incomplete tasks first while preserving creation order inside each
group. -/
def sortTasksByCompletion (ts : List Task) : List Task :=
  ts.filter (fun t => !t.completed) ++ ts.filter (fun t => t.completed)

/-- The Today page's space-key handler (unfiltered path): read the task at
the selected index, toggle it optimistically, re-sort, and issue
`saveTaskCompletionCmd(db, item.id, item.completed)` carrying the *new*
value.  Returns the new item list and the persistence effect's payload. -/
def todayToggle (items : List Task) (idx : Nat) :
    List Task × Option (String × Bool) :=
  match items.get? idx with
  | none => (items, none)
  | some t =>
      let t' := t.toggleCompleted
      (sortTasksByCompletion (items.set idx t'), some (t'.id, t'.completed))

/-- The `taskCompletionSaveFailedMsg` handler of `TodayPage.Update`: walk
the items, and at the *first* task whose id matches, set `completed` to
the negation of the value the failed write attempted, then stop (`break`).
If no task matches, nothing changes. -/
def todayRollback (items : List Task) (taskID : String) (completed : Bool) :
    List Task :=
  match items with
  | [] => []
  | t :: rest =>
      if t.id = taskID then { t with completed := !completed } :: rest
      else t :: todayRollback rest taskID completed

/-- The displayed completion state of the task with the given id (the
first matching list row), `none` if the task is absent. -/
def taskCompletedByID : List Task → String → Option Bool
  | [], _ => none
  | t :: rest, tid =>
      if t.id = tid then some t.completed else taskCompletedByID rest tid

/-- A history row's completion map (Go `map[string]bool`, date key):
association list; a missing key reads as `false`. -/
def lookupCompletion : List (String × Bool) → String → Bool
  | [], _ => false
  | kv :: rest, d => if kv.1 = d then kv.2 else lookupCompletion rest d

/-- Map update `completions[d] = b`. -/
def setCompletion (cs : List (String × Bool)) (d : String) (b : Bool) :
    List (String × Bool) :=
  match cs with
  | [] => [(d, b)]
  | kv :: rest =>
      if kv.1 = d then (d, b) :: rest else kv :: setCompletion rest d b

/-- Go `HistoryTask` from the History page: a task with its heat-map of
per-date completions. -/
structure HistoryTask where
  id : String
  title : String
  completions : List (String × Bool)
  deriving Repr, DecidableEq

/-- Go `HistoryPage.handleSpaceToggle`: read the task at the list index,
flip `completions[selectedDate]` optimistically (the new value is the
negation of the current map lookup), write the item back in place, and
issue `saveHistoryCompletionCmd(db, item.id, selectedDate, newCompleted)`. -/
def historyToggle (items : List HistoryTask) (idx : Nat) (date : String) :
    List HistoryTask × Option (String × String × Bool) :=
  match items.get? idx with
  | none => (items, none)
  | some t =>
      let newC := !(lookupCompletion t.completions date)
      (items.set idx { t with completions := setCompletion t.completions date newC },
       some (t.id, date, newC))

/-- The `historyCompletionSaveFailedMsg` handler of `HistoryPage.Update`:
at the *first* task whose id matches, set `completions[msg.date]` to the
negation of the attempted value, then `break`; absent id means no change. -/
def historyRollback (items : List HistoryTask) (taskID date : String)
    (completed : Bool) : List HistoryTask :=
  match items with
  | [] => []
  | t :: rest =>
      if t.id = taskID then
        { t with completions := setCompletion t.completions date (!completed) } :: rest
      else t :: historyRollback rest taskID date completed

/-- The displayed heat-map cell for task id `tid` at date `d` (first
matching row). -/
def historyCellByID : List HistoryTask → String → String → Option Bool
  | [], _, _ => none
  | t :: rest, tid, d =>
      if t.id = tid then some (lookupCompletion t.completions d)
      else historyCellByID rest tid d

/-! ### The task_history table (saveHistoryCompletionCmd / saveTaskCompletionCmd) -/

/-- A row of the `task_history` table: generated row id, task id,
completion date.  The schema has a unique constraint on
`(task_id, completed_date)`. -/
structure HistRow where
  rowID : String
  taskID : String
  date : String
  deriving Repr, DecidableEq

/-- Number of rows for a given `(task_id, completed_date)` pair. -/
def countRows (tbl : List HistRow) (tid d : String) : Nat :=
  (tbl.filter (fun r => r.taskID = tid ∧ r.date = d)).length

/-- SQL `INSERT ... ON CONFLICT(task_id, completed_date) DO NOTHING`: append a
fresh row unless one with the same key already exists. -/
def insertCompletionRow (tbl : List HistRow) (rid tid d : String) : List HistRow :=
  if tbl.any (fun r => r.taskID = tid ∧ r.date = d) then tbl
  else tbl ++ [⟨rid, tid, d⟩]

/-- SQL `DELETE FROM task_history WHERE task_id = ? AND completed_date = ?`. -/
def deleteCompletionRow (tbl : List HistRow) (tid d : String) : List HistRow :=
  tbl.filter (fun r => ¬(r.taskID = tid ∧ r.date = d))

/-- The body of `saveHistoryCompletionCmd` / `saveTaskCompletionCmd`:
insert on toggle-on, delete on toggle-off. -/
def saveHistoryCompletion (tbl : List HistRow) (rid tid d : String)
    (completed : Bool) : List HistRow :=
  if completed then insertCompletionRow tbl rid tid d
  else deleteCompletionRow tbl tid d

/-! ## Runtime core: page registry, init-once set, global keys
(src/app_model.go, src/pages/types.go) -/

/-- Go `pages.PageID` (src/pages/types.go). -/
inductive PageID where
  | today
  | journal
  | oura
  | planta
  | history
  | taskCfg
  deriving Repr, DecidableEq

/-- The ordered page registry built by `NewAppModel`: Today, Oura, Planta,
History, TaskCfg.  Every one of these pages implements `PageInitializer`. -/
def appPages : List PageID := [.today, .oura, .planta, .history, .taskCfg]

/-- The `initialized` map of `AppModel` together with the active page
index (`paginator.Page`). -/
structure AppNavState where
  active : Nat
  initialized : List PageID
  deriving Repr, DecidableEq

/-- The navigation keys the paginator reacts to. -/
inductive NavKey where
  | left
  | right
  deriving Repr, DecidableEq

/-- Go `paginator.Model.Update` on a navigation key: move one page left or
right, clamped to the registry bounds. -/
def paginatorStep (page total : Nat) : NavKey → Nat
  | .left => if page > 0 then page - 1 else page
  | .right => if page + 1 < total then page + 1 else page

/-- Effect requests issued by `AppModel.Update`. -/
inductive AppEffect where
  | initCmd (pid : PageID)
  deriving Repr, DecidableEq

/-- Where the paginator leaves the active index for a navigation key:
unchanged while the active page captures navigation, otherwise one step
left or right. -/
def navTargetIndex (s : AppNavState) (k : NavKey) (capturesNav : Bool) : Nat :=
  if capturesNav then s.active else paginatorStep s.active appPages.length k

/-- The navigation path of `AppModel.Update` on a left/right key message:
remember `prevPage`, let the paginator move the index (unless the active
page captures navigation), and — if the index changed and the newly
active page is a `PageInitializer` not yet in `initialized` — record
membership and issue its `InitCmd`. -/
def appNavUpdate (s : AppNavState) (k : NavKey) (capturesNav : Bool) :
    AppNavState × List AppEffect :=
  if navTargetIndex s k capturesNav ≠ s.active ∧
      appPages.getD (navTargetIndex s k capturesNav) .today ∉ s.initialized then
    ({ active := navTargetIndex s k capturesNav,
       initialized := appPages.getD (navTargetIndex s k capturesNav) .today :: s.initialized },
     [.initCmd (appPages.getD (navTargetIndex s k capturesNav) .today)])
  else
    ({ s with active := navTargetIndex s k capturesNav }, [])

/-- Run a sequence of plain navigation key messages (no page capturing
navigation), collecting all issued effects. -/
def appNavRun (s : AppNavState) : List NavKey → AppNavState × List AppEffect
  | [] => (s, [])
  | k :: ks =>
      let r1 := appNavUpdate s k false
      let r2 := appNavRun r1.1 ks
      (r2.1, r1.2 ++ r2.2)

/-- The `pages.InvalidateTodayPageMsg` case of `AppModel.Update`:
`delete(m.initialized, pages.TodayPageID)` and return with no effects. -/
def appInvalidate (s : AppNavState) : AppNavState :=
  { s with initialized := s.initialized.filter (fun pid => pid ≠ .today) }

/-- Go `AppModel.Init`: the initially active page is a `PageInitializer`, so
it is recorded in `initialized` and its `InitCmd` is issued. -/
def appInit (s : AppNavState) : AppNavState × List AppEffect :=
  let pid := appPages.getD s.active .today
  ({ s with initialized := pid :: s.initialized }, [.initCmd pid])

/-- Number of `initCmd` effects for the given page in an effect list. -/
def countInits (pid : PageID) (es : List AppEffect) : Nat :=
  (es.filter (fun e => e = .initCmd pid)).length

/-! ### Global key handling (C5) -/

/-- What `AppModel.Update` does with a key message before any page sees
it. -/
inductive KeyAction where
  | quit
  | toggleHelp
  | forwardToPage
  deriving Repr, DecidableEq

/-- The `tea.KeyMsg` switch at the top of `AppModel.Update`: a key
matching `globalKeys.Quit` ("q" or "ctrl+c") quits, a key matching
`globalKeys.Help` ("?") toggles help, anything else falls through to the
paginator and the active page.  The active page's `CapturesGlobalKeys`
answer is passed in as `capturesGlobalKeys` — note that the Go code never
consults it: the parameter is unused, exactly as in the source. -/
def appHandleKey (capturesGlobalKeys : Bool) (k : String) : KeyAction :=
  if k = "q" ∨ k = "ctrl+c" then .quit
  else if k = "?" then .toggleHelp
  else .forwardToPage

/-- Go `journalMode` (src/pages/journal.go). -/
inductive JournalMode where
  | view
  | vimNormal
  | vimInsert
  deriving Repr, DecidableEq

/-- Go `JournalPage.CapturesGlobalKeys`: true exactly in vim-insert mode. -/
def journalCapturesGlobalKeys (m : JournalMode) : Bool :=
  m = JournalMode.vimInsert

/-! ### Active-page-only dispatch (C10) -/

/-- The messages `AppModel.Update` can receive, with page-bound messages
(`keyOther` and effect results) abstracted over a payload type.  An
effect result remembers which page index issued the effect — information
the dispatcher never looks at. -/
inductive TeaMsg (ε : Type) where
  | resize (w h : Nat)
  | invalidate
  | keyQuit
  | keyHelp
  | keyNav (k : NavKey)
  | keyOther (payload : ε)
  | effectResult (issuer : Nat) (payload : ε)

/-- The root model state for the dispatch embedding: the page list (page
states abstracted to `σ`), the active index, the help toggle, and the
stored terminal dimensions. -/
structure TeaApp (σ : Type) where
  pages : List σ
  active : Nat
  helpShowAll : Bool
  width : Nat
  height : Nat

/-- Go `AppModel.helpHeight`: the full help view uses 2 rows, the short
one 1. -/
def helpHeight (showAll : Bool) : Nat :=
  if showAll then 2 else 1

/-- Go `AppModel.contentHeight`: 0 while no size is known, otherwise the
terminal height minus the fixed chrome —
`1 + 2 + 2 + helpHeight + 2 + 1` plus `DocStyle`'s vertical frame size of
2 (`Padding(1, 2)`), clamped at 0. -/
def contentHeight (height : Nat) (showAll : Bool) : Nat :=
  if height = 0 then 0
  else height - (1 + 2 + 2 + helpHeight showAll + 2 + 1 + 2)

/-- Go `AppModel.updatePageSizes`: notify every page of the available
width and content height via its `SetSize` method. -/
def updatePageSizes {σ : Type} (setSize : σ → Nat → Nat → σ)
    (pages : List σ) (width height : Nat) (showAll : Bool) : List σ :=
  pages.map (fun p => setSize p width (contentHeight height showAll))

/-- Go `AppModel.Update`, with the per-page behaviour abstracted:
`update p m` is `p.Update(m)`'s state component, `setSize p` is
`p.SetSize(w, h)`, `capturesNav p` is the page's `CapturesNavigation`
answer.  A quit key and `InvalidateTodayPageMsg` return early with no
page touched; a resize stores the dimensions and notifies every page via
`SetSize` (not `Update`); the help key flips the toggle and re-runs
`updatePageSizes` with the new help height — again `SetSize`, not
`Update`; every other message flows through the paginator (navigation
keys only, suppressed under capture) and is then delivered to
`m.pages[idx].Update(msg)` for the single active index `idx`.  The
`Bool` result mirrors `tea.Quit`. -/
def teaUpdate {σ ε : Type} (d : σ) (update : σ → TeaMsg ε → σ)
    (setSize : σ → Nat → Nat → σ) (capturesNav : σ → Bool)
    (m : TeaApp σ) (msg : TeaMsg ε) : TeaApp σ × Bool :=
  match msg with
  | .resize w h =>
      ({ m with width := w, height := h, pages := updatePageSizes setSize m.pages w h m.helpShowAll },
       false)
  | .invalidate => (m, false)
  | .keyQuit => (m, true)
  | .keyHelp =>
      ({ m with helpShowAll := !m.helpShowAll, pages := updatePageSizes setSize m.pages m.width m.height (!m.helpShowAll) },
       false)
  | msg =>
      let capNav := capturesNav (m.pages.getD m.active d)
      let idx := match msg with
        | .keyNav k => if capNav then m.active else paginatorStep m.active m.pages.length k
        | _ => m.active
      ({ m with
          active := idx,
          pages := m.pages.set idx (update (m.pages.getD idx d) msg) }, false)

/-! ## Polling pages: tick handling under transient auth states
(src/pages/oura.go, src/pages/planta.go) -/

/-- The fields of `OuraPage` read or written by the `ouraTickMsg` case.
`dataVersion` stands for the displayed readiness/heart-rate data. -/
structure OuraPageState where
  pollCount : Nat
  loading : Bool
  needsAuth : Bool
  authPending : Bool
  err : Option String
  dataVersion : Nat
  deriving Repr, DecidableEq

/-- Effects the polling pages issue. -/
inductive PollEffect where
  | fetch
  | tick
  deriving Repr, DecidableEq

/-- The `ouraTickMsg` case of `OuraPage.Update`: while authentication is
needed or an authorization flow is pending, keep ticking but fetch
nothing; otherwise bump the poll counter, mark loading, and issue the
fetch along with the next tick. -/
def ouraTickUpdate (p : OuraPageState) : OuraPageState × List PollEffect :=
  if p.needsAuth ∨ p.authPending then
    (p, [.tick])
  else
    ({ p with pollCount := p.pollCount + 1, loading := true }, [.fetch, .tick])

/-- The fields of `PlantaPage` read or written by the `plantaTickMsg`
case.  `dataVersion` stands for the displayed task list. -/
structure PlantaPageState where
  pollCount : Nat
  loading : Bool
  needsAuth : Bool
  completing : Bool
  err : Option String
  dataVersion : Nat
  deriving Repr, DecidableEq

/-- The `plantaTickMsg` case of `PlantaPage.Update`: while authentication
is needed or an action-completion call is in flight, keep ticking but
fetch nothing; otherwise bump the poll counter, mark loading, and issue
the fetch along with the next tick. -/
def plantaTickUpdate (p : PlantaPageState) : PlantaPageState × List PollEffect :=
  if p.needsAuth ∨ p.completing then
    (p, [.tick])
  else
    ({ p with pollCount := p.pollCount + 1, loading := true }, [.fetch, .tick])

/-! ## Theorems -/

/-- C1: every debounced journal edit arms a timer carrying the debounce
version current at the time of the edit; when a tick fires, the write is
performed only if its version still equals the page's current counter and
the textarea content differs from the last confirmed save — otherwise the
tick is a no-op.  Consequently, three edits all inside one debounce
interval (their three ticks all arriving after the last edit) produce
exactly one persistence write, containing the content of the last edit. -/
theorem journal_debounce_single_write
    (p : JournalState) (c1 c2 c3 : String)
    (h1 : c1 ≠ p.content) (h2 : c2 ≠ c1) (h3 : c3 ≠ c2)
    (hSave : c3 ≠ p.lastSavedContent) :
    (journalUpdate p (.edit c1) =
      ({ p with content := c1, debounceVersion := p.debounceVersion + 1 },
       [.startDebounce (p.debounceVersion + 1)])) ∧
    (∀ q : JournalState, ∀ w : Nat, w ≠ q.debounceVersion →
      journalUpdate q (.debounceTick w) = (q, [])) ∧
    (∀ q : JournalState, q.content = q.lastSavedContent →
      journalUpdate q (.debounceTick q.debounceVersion) = (q, [])) ∧
    saveWrites (journalRun p
      [.edit c1, .edit c2, .edit c3,
       .debounceTick (p.debounceVersion + 1),
       .debounceTick (p.debounceVersion + 2),
       .debounceTick (p.debounceVersion + 3)]).2
      = [.save p.entryID c3] := by
  refine ⟨?_, ?_, ?_, ?_⟩
  · simp [journalUpdate, h1]
  · intro q w hw
    simp [journalUpdate, hw]
  · intro q hq
    simp [journalUpdate, hq]
  · simp [journalRun, journalUpdate, saveWrites, h1, h2, h3, hSave]

/-- C1 witness: a quiescent journal page receiving three content-changing
edits and then the three armed ticks performs exactly one write, with the
final content. -/
theorem journal_debounce_single_write_witness :
    saveWrites (journalRun ⟨"", 0, "", false, "entry1"⟩
      [.edit "a", .edit "ab", .edit "abc",
       .debounceTick 1, .debounceTick 2, .debounceTick 3]).2
      = [.save "entry1" "abc"] :=
  (journal_debounce_single_write ⟨"", 0, "", false, "entry1"⟩ "a" "ab" "abc"
    (by decide) (by decide) (by decide) (by decide)).2.2.2

/-- C2 counterexample: at the boundary instant where `now + skew`
*equals* `expires_at` (token "tok" expiring at second 300, queried at
second 0 with a 300-second skew), the spec's strict rule
`now + skew < expires_at` deems the token unusable, yet `IsExpired`
returns false and `GetValidTokens` returns the stored token unchanged
without attempting any refresh — so "usable exactly when now + skew is
strictly before expires_at" is false. -/
theorem token_skew_boundary_counterexample :
    specUsable ⟨"tok", "r", 300⟩ 0 = false ∧
    isExpired ⟨"tok", "r", 300⟩ 0 = false ∧
    getValidTokens (.fileTokens ⟨"tok", "r", 300⟩) 0 none
      = (.ok (some ⟨"tok", "r", 300⟩), none) := by
  refine ⟨by decide, by decide, ?_⟩
  simp [getValidTokens, isExpired, expirySkew]

/-- C2 amended: a stored credential is considered usable exactly when the
access token is non-empty and `now + skew ≤ expires_at` (the code uses a
non-strict comparison: `IsExpired` is `now + skew` strictly *after*
`expires_at`); and when the stored token expires 4 minutes from now
(inside the 5-minute skew) a refresh is attempted before any use, and on
success the freshly refreshed token — not the stale one — is both
returned and persisted to the token store. -/
theorem token_skew_refresh_amended
    (t nt : Tokens) (now : Int)
    (h4 : t.expiresAt = now + 4 * 60) :
    (∀ u : Tokens, ∀ m : Int,
        isExpired u m = false ↔ u.accessToken ≠ "" ∧ m + expirySkew ≤ u.expiresAt) ∧
    isExpired t now = true ∧
    getValidTokens (.fileTokens t) now (some nt) = (.ok (some nt), some nt) := by
  have hexp : isExpired t now = true := by
    simp [isExpired, h4, expirySkew]
  refine ⟨?_, hexp, ?_⟩
  · intro u m
    simp [isExpired, not_or, not_lt, expirySkew]
  · simp [getValidTokens, hexp]

/-- C2 witness: a token expiring 240 seconds after `now = 0` triggers a
refresh; the refreshed record is returned and persisted. -/
theorem token_skew_refresh_amended_witness :
    isExpired ⟨"tok", "r", 240⟩ 0 = true ∧
    getValidTokens (.fileTokens ⟨"tok", "r", 240⟩) 0 (some ⟨"new", "r2", 3600⟩)
      = (.ok (some ⟨"new", "r2", 3600⟩), some ⟨"new", "r2", 3600⟩) :=
  ⟨(token_skew_refresh_amended ⟨"tok", "r", 240⟩ ⟨"new", "r2", 3600⟩ 0 (by decide)).2.1,
   (token_skew_refresh_amended ⟨"tok", "r", 240⟩ ⟨"new", "r2", 3600⟩ 0 (by decide)).2.2⟩

/-- C7: `GetValidTokens` never surfaces an authentication problem as an
error — an error result can only come from an unreadable token file.  In
particular, with no stored token it returns the "no token" outcome
`(nil, nil)` rather than an error, and with a stored-but-expired token
whose refresh fails it likewise returns `(nil, nil)`, forcing
re-authentication instead of a hard failure.  (The Oura and Planta
`GetValidTokens` bodies are identical; this embedding covers both.) -/
theorem get_valid_tokens_no_auth_error
    (now : Int) (t : Tokens) (r : Option Tokens)
    (hExp : isExpired t now = true) :
    (∀ load : LoadResult, ∀ n : Int, ∀ rf : Option Tokens, ∀ e : String,
        (getValidTokens load n rf).1 = .error e → load = .ioError) ∧
    getValidTokens .noFile now r = (.ok none, none) ∧
    getValidTokens (.fileTokens t) now none = (.ok none, none) := by
  refine ⟨?_, rfl, ?_⟩
  · intro load n rf e h
    cases load with
    | ioError => rfl
    | noFile => simp [getValidTokens] at h
    | fileTokens u =>
        simp only [getValidTokens] at h
        split at h
        · cases rf <;> simp at h
        · simp at h
  · simp [getValidTokens, hExp]

/-- C7 witness: no stored token yields `(nil, nil)`; an expired stored
token whose refresh fails also yields `(nil, nil)`. -/
theorem get_valid_tokens_no_auth_error_witness :
    isExpired ⟨"tok", "r", 100⟩ 0 = true ∧
    getValidTokens .noFile 0 none = (.ok none, none) ∧
    getValidTokens (.fileTokens ⟨"tok", "r", 100⟩) 0 none = (.ok none, none) :=
  ⟨by decide,
   (get_valid_tokens_no_auth_error 0 ⟨"tok", "r", 100⟩ none (by decide)).2.1,
   (get_valid_tokens_no_auth_error 0 ⟨"tok", "r", 100⟩ none (by decide)).2.2⟩

/-- A navigation step never removes a page from the initialized set. -/
theorem appNavUpdate_mem_initialized (s : AppNavState) (k : NavKey) (b : Bool)
    (pid : PageID) (h : pid ∈ s.initialized) :
    pid ∈ (appNavUpdate s k b).1.initialized := by
  unfold appNavUpdate
  split_ifs with hc
  · exact List.mem_cons_of_mem _ h
  · exact h

/-- Counting `initCmd` effects distributes over concatenation. -/
theorem countInits_append (pid : PageID) (es1 es2 : List AppEffect) :
    countInits pid (es1 ++ es2) = countInits pid es1 + countInits pid es2 := by
  simp [countInits, List.filter_append]

/-- A navigation step issues no init effect for a page already in the
initialized set. -/
theorem countInits_appNavUpdate_of_mem (s : AppNavState) (k : NavKey) (b : Bool)
    (pid : PageID) (h : pid ∈ s.initialized) :
    countInits pid (appNavUpdate s k b).2 = 0 := by
  unfold appNavUpdate
  split_ifs with hc
  · have hne : appPages[navTargetIndex s k b]?.getD PageID.today ≠ pid := by
      rw [← List.getD_eq_getElem?_getD]
      intro he
      exact hc.2 (he ▸ h)
    simp [countInits, List.filter_cons, hne]
  · simp [countInits]

/-- Membership in the initialized set persists across a navigation run. -/
theorem appNavRun_mem_initialized (pid : PageID) :
    ∀ (ks : List NavKey) (s : AppNavState), pid ∈ s.initialized →
      pid ∈ (appNavRun s ks).1.initialized := by
  intro ks
  induction ks with
  | nil => intro s h; exact h
  | cons k ks ih =>
      intro s h
      exact ih _ (appNavUpdate_mem_initialized s k false pid h)

/-- A navigation run from a state where the page is already initialized
issues no init effect for it. -/
theorem appNavRun_no_init_of_mem (pid : PageID) :
    ∀ (ks : List NavKey) (s : AppNavState), pid ∈ s.initialized →
      countInits pid (appNavRun s ks).2 = 0 := by
  intro ks
  induction ks with
  | nil => intro s h; simp [appNavRun, countInits]
  | cons k ks ih =>
      intro s h
      have h1 := countInits_appNavUpdate_of_mem s k false pid h
      have h2 := ih _ (appNavUpdate_mem_initialized s k false pid h)
      unfold appNavRun
      rw [countInits_append, h1, h2]

/-- A navigation run issues any given page's init effect at most once. -/
theorem appNavRun_init_at_most_once (pid : PageID) :
    ∀ (ks : List NavKey) (s : AppNavState),
      countInits pid (appNavRun s ks).2 ≤ 1 := by
  intro ks
  induction ks with
  | nil => intro s; simp [appNavRun, countInits]
  | cons k ks ih =>
      intro s
      unfold appNavRun
      rw [countInits_append]
      by_cases hm : pid ∈ (appNavUpdate s k false).1.initialized
      · have h2 := appNavRun_no_init_of_mem pid ks _ hm
        rw [h2]
        -- the step issues at most one effect in total
        have hstep : countInits pid (appNavUpdate s k false).2 ≤ 1 := by
          unfold appNavUpdate
          split_ifs
          · simp only [countInits, List.filter_cons]
            split <;> simp
          · simp [countInits]
        omega
      · -- the page is not initialized after the step, so the step issued
        -- no init for it (issuing would have recorded membership)
        have hstep : countInits pid (appNavUpdate s k false).2 = 0 := by
          unfold appNavUpdate at hm ⊢
          split_ifs at hm ⊢ with hc
          · have hne : appPages[navTargetIndex s k false]?.getD PageID.today ≠ pid := by
              rw [← List.getD_eq_getElem?_getD]
              intro he
              apply hm
              exact he ▸ List.mem_cons_self _ _
            simp [countInits, List.filter_cons, hne]
          · simp [countInits]
        rw [hstep]
        simpa using ih (appNavUpdate s k false).1

/-- C4: a page's async-init effect is issued at most once per membership
in the initialized set.  (a) While a page's identity is in the set, no
navigation sequence issues its init again, and membership persists;
(b) any navigation sequence issues a page's init at most once; (c) a
single navigation issues a page's init exactly when the active index
changed and the page is not in the set, and issuing records membership,
while a page in the set gets no effect; (d) delivering
`InvalidateTodayPageMsg` removes the Today page from the set, after which
a navigation landing on Today issues its init effect again. -/
theorem init_once_per_membership
    (s : AppNavState) (ks : List NavKey) (k : NavKey) (pid : PageID)
    (idx : Nat) (npid : PageID)
    (hidx : idx = paginatorStep s.active appPages.length k)
    (hnpid : npid = appPages.getD idx .today) :
    (pid ∈ s.initialized →
      countInits pid (appNavRun s ks).2 = 0 ∧
      pid ∈ (appNavRun s ks).1.initialized) ∧
    countInits pid (appNavRun s ks).2 ≤ 1 ∧
    (idx ≠ s.active ∧ npid ∉ s.initialized →
      appNavUpdate s k false =
        ({ active := idx, initialized := npid :: s.initialized }, [.initCmd npid])) ∧
    (npid ∈ s.initialized → (appNavUpdate s k false).2 = []) ∧
    PageID.today ∉ (appInvalidate s).initialized ∧
    (s.active = 1 → (appNavUpdate (appInvalidate s) .left false).2 = [.initCmd .today]) := by
  subst hidx hnpid
  have hnav : navTargetIndex s k false = paginatorStep s.active appPages.length k := by
    simp [navTargetIndex]
  refine ⟨fun h => ⟨appNavRun_no_init_of_mem pid ks s h, appNavRun_mem_initialized pid ks s h⟩,
    appNavRun_init_at_most_once pid ks s, ?_, ?_, ?_, ?_⟩
  · intro hc
    unfold appNavUpdate
    rw [hnav, if_pos hc]
  · intro hmem
    unfold appNavUpdate
    have hneg : ¬(navTargetIndex s k false ≠ s.active ∧
        appPages.getD (navTargetIndex s k false) PageID.today ∉ s.initialized) := by
      rw [hnav]
      intro hc
      exact hc.2 hmem
    rw [if_neg hneg]
  · simp [appInvalidate]
  · intro hact
    unfold appNavUpdate
    have h1 : navTargetIndex (appInvalidate s) .left false = 0 := by
      simp [navTargetIndex, appInvalidate, paginatorStep, hact]
    rw [h1, if_pos]
    · simp [appPages]
    · constructor
      · simp [appInvalidate, hact]
      · simp [appPages, appInvalidate, List.mem_filter]

/-- C4 witness: a page already in the initialized set receives no further
init effect across a navigation round trip, and invalidation removes the
Today page from the set. -/
theorem init_once_per_membership_witness :
    countInits .today (appNavRun ⟨0, [.today]⟩ [.right, .left]).2 = 0 ∧
    PageID.today ∉ (appInvalidate ⟨1, [.today]⟩).initialized ∧
    (appNavUpdate (appInvalidate ⟨1, [.today]⟩) .left false).2 = [.initCmd .today] :=
  ⟨((init_once_per_membership ⟨0, [.today]⟩ [.right, .left] .right .today 1 .oura
      (by decide) (by decide)).1 (by decide)).1,
   (init_once_per_membership ⟨1, [.today]⟩ [] .left .today 0 .today
      (by decide) (by decide)).2.2.2.2.1,
   (init_once_per_membership ⟨1, [.today]⟩ [] .left .today 0 .today
      (by decide) (by decide)).2.2.2.2.2 rfl⟩

/-- C5 (failing input): the Journal page reports capturing global keys in
vim-insert mode, yet `AppModel.Update`'s key handling quits on 'q'
regardless — the `CapturesGlobalKeys` answer is never consulted (the
handler's behaviour is the same for both possible answers), so pressing
'q' while typing in the insert sub-mode quits the application instead of
delivering 'q' to the page as text. -/
theorem quit_key_bypasses_global_capture :
    journalCapturesGlobalKeys .vimInsert = true ∧
    appHandleKey (journalCapturesGlobalKeys .vimInsert) "q" = .quit ∧
    (∀ b : Bool, ∀ k : String, appHandleKey b k = appHandleKey (!b) k) :=
  ⟨rfl, by decide, fun b k => rfl⟩

/-- C6 counterexample: unlike the Oura client, the Planta client
classifies a 403 (and a 429) response as the generic
"API request failed with status: %d" failure — not as a distinct
entitlement-denied / rate-limited outcome — so "the two API clients"
do not both classify these statuses distinctly. -/
theorem planta_status_classification_counterexample :
    plantaCall 403 false 0 = (.errStatus 403, 1) ∧
    plantaCall 429 false 0 = (.errStatus 429, 1) ∧
    plantaCompleteCall 403 false 0 = (.errStatus 403, 1) ∧
    ouraCall 403 false 0 = (.errForbidden, 1) ∧
    ouraCall 429 false 0 = (.errRateLimited, 1) := by
  decide

/-- C6 amended: every authenticated call of both clients follows the
retry-once-on-401 policy — at most two HTTP requests are issued, the
second exactly when the first returned 401 and the token refresh
succeeded, and a 401 on the retry is not retried again.  403 and 429
responses are never retried by either client; the Oura client surfaces
them as the distinct subscription-expired and rate-limited errors, while
the Planta client surfaces them as generic status failures. -/
theorem retry_once_on_401_amended :
    (∀ (c : Nat → ApiOutcome) (first second : Nat) (ro : Bool),
        (callWith401Retry c first ro second).2 ≤ 2 ∧
        ((callWith401Retry c first ro second).2 = 2 ↔ first = 401 ∧ ro = true)) ∧
    (∀ (c : Nat → ApiOutcome) (ro : Bool),
        callWith401Retry c 401 ro 401 =
          if ro then (c 401, 2) else (.errRefreshFailed, 1)) ∧
    ouraClassify 403 = .errForbidden ∧
    ouraClassify 429 = .errRateLimited ∧
    (∀ (ro : Bool) (second : Nat),
        ouraCall 403 ro second = (.errForbidden, 1) ∧
        ouraCall 429 ro second = (.errRateLimited, 1)) ∧
    plantaClassify 403 = .errStatus 403 ∧
    plantaClassify 429 = .errStatus 429 ∧
    (∀ (ro : Bool) (second : Nat),
        plantaCall 403 ro second = (.errStatus 403, 1) ∧
        plantaCall 429 ro second = (.errStatus 429, 1) ∧
        plantaCompleteCall 403 ro second = (.errStatus 403, 1) ∧
        plantaCompleteCall 429 ro second = (.errStatus 429, 1)) := by
  refine ⟨?_, ?_, by decide, by decide, ?_, by decide, by decide, ?_⟩
  · intro c first second ro
    unfold callWith401Retry
    split_ifs with h1 h2 <;> simp_all
  · intro c ro
    cases ro <;> simp [callWith401Retry]
  · intro ro second
    refine ⟨?_, ?_⟩ <;>
      simp [ouraCall, callWith401Retry, ouraClassify]
  · intro ro second
    refine ⟨?_, ?_, ?_, ?_⟩ <;>
      simp [plantaCall, plantaCompleteCall, callWith401Retry, plantaClassify,
        plantaCompleteClassify]

/-- C8: for both polling pages, a tick received while authentication is
required or an authorization/completion operation is in flight leaves the
page state unchanged — poll counter, loading flag, error and displayed
data untouched — and issues exactly the effect that re-arms the next
tick, with no fetch. -/
theorem poll_tick_noop_when_unauthenticated
    (o : OuraPageState) (pl : PlantaPageState)
    (ho : o.needsAuth = true ∨ o.authPending = true)
    (hp : pl.needsAuth = true ∨ pl.completing = true) :
    ouraTickUpdate o = (o, [.tick]) ∧
    plantaTickUpdate pl = (pl, [.tick]) := by
  constructor
  · unfold ouraTickUpdate
    rw [if_pos]
    simpa using ho
  · unfold plantaTickUpdate
    rw [if_pos]
    simpa using hp

/-- C8 witness: a tick on an Oura page with a pending authorization flow
and on a Planta page awaiting credentials is a pure re-arm. -/
theorem poll_tick_noop_when_unauthenticated_witness :
    ouraTickUpdate ⟨3, false, false, true, none, 7⟩ = (⟨3, false, false, true, none, 7⟩, [.tick]) ∧
    plantaTickUpdate ⟨4, false, true, false, none, 9⟩ = (⟨4, false, true, false, none, 9⟩, [.tick]) :=
  poll_tick_noop_when_unauthenticated ⟨3, false, false, true, none, 7⟩
    ⟨4, false, true, false, none, 9⟩ (Or.inr rfl) (Or.inl rfl)

/-- C9: toggling a task's completion twice in succession (both
persistence writes succeeding) returns the entity's `completed` flag to
its original value, and starting from no history row for `(tid, d)`,
toggling on inserts exactly one row for that key and toggling off deletes
it again, leaving the table exactly as it started. -/
theorem toggle_twice_no_net_history_change
    (t : Task) (tbl : List HistRow) (rid rid2 tid d : String)
    (h : countRows tbl tid d = 0) :
    t.toggleCompleted.toggleCompleted = t ∧
    countRows (saveHistoryCompletion tbl rid tid d true) tid d = 1 ∧
    saveHistoryCompletion (saveHistoryCompletion tbl rid tid d true) rid2 tid d false
      = tbl := by
  have hall : ∀ r ∈ tbl, ¬(r.taskID = tid ∧ r.date = d) := by
    have hnil : tbl.filter (fun r => r.taskID = tid ∧ r.date = d) = [] := by
      have := h
      simp only [countRows, List.length_eq_zero] at this
      exact this
    intro r hr
    have := List.filter_eq_nil_iff.mp hnil r hr
    simpa using this
  have hany : tbl.any (fun r => r.taskID = tid ∧ r.date = d) = false := by
    rw [List.any_eq_false]
    intro r hr
    simpa using hall r hr
  have hins : saveHistoryCompletion tbl rid tid d true = tbl ++ [⟨rid, tid, d⟩] := by
    unfold saveHistoryCompletion insertCompletionRow
    rw [if_pos rfl, if_neg]
    intro hc
    rw [List.any_eq_true] at hc
    obtain ⟨r, hr, hrc⟩ := hc
    exact hall r hr (by simpa using hrc)
  refine ⟨?_, ?_, ?_⟩
  · simp [Task.toggleCompleted]
  · rw [hins]
    simp only [countRows, List.filter_append]
    have h1 : tbl.filter (fun r => r.taskID = tid ∧ r.date = d) = [] := by
      simp only [countRows, List.length_eq_zero] at h
      exact h
    rw [h1]
    simp
  · rw [hins]
    simp only [saveHistoryCompletion, deleteCompletionRow, if_neg (Bool.false_ne_true),
      List.filter_append]
    have h2 : tbl.filter (fun r => ¬(r.taskID = tid ∧ r.date = d)) = tbl := by
      rw [List.filter_eq_self]
      intro r hr
      have := hall r hr
      simp only [decide_eq_true_eq]
      tauto
    rw [h2]
    simp

/-- C9 witness: with an unrelated pre-existing row, toggling task "T" on
for date "2024-01-01" and then off restores the table exactly. -/
theorem toggle_twice_no_net_history_change_witness :
    (Task.toggleCompleted (Task.toggleCompleted ⟨"T", "t", "", false⟩)) = ⟨"T", "t", "", false⟩ ∧
    countRows (saveHistoryCompletion [⟨"r0", "U", "2024-01-01"⟩] "r1" "T" "2024-01-01" true)
      "T" "2024-01-01" = 1 ∧
    saveHistoryCompletion
      (saveHistoryCompletion [⟨"r0", "U", "2024-01-01"⟩] "r1" "T" "2024-01-01" true)
      "r2" "T" "2024-01-01" false = [⟨"r0", "U", "2024-01-01"⟩] :=
  toggle_twice_no_net_history_change ⟨"T", "t", "", false⟩ [⟨"r0", "U", "2024-01-01"⟩]
    "r1" "r2" "T" "2024-01-01" (by decide)

/-- C10: every dispatched message invokes the update function of at most
the single page at the active index.  Quit and the invalidation message
touch no page at all; the help key invokes no page's update either —
every page receives only the `SetSize` resize notification of the
re-run `updatePageSizes`.  A non-navigation key and an effect result
are delivered exactly to `pages[active]`, leaving every other index
unchanged; in particular an effect result carrying the index of the page
that issued the effect is delivered to the *currently* active page
regardless of its issuer, and the issuing page's state is unchanged
whenever it is no longer active.  A navigation key updates the page at
the post-navigation active index and no other. -/
theorem active_page_only_dispatch
    {σ ε : Type} (d : σ) (u : σ → TeaMsg ε → σ)
    (ss : σ → Nat → Nat → σ) (cn : σ → Bool) (m : TeaApp σ) :
    ((teaUpdate d u ss cn m .invalidate).1.pages = m.pages ∧
     (teaUpdate d u ss cn m .keyQuit).1.pages = m.pages ∧
     (teaUpdate d u ss cn m .keyHelp).1.pages
        = updatePageSizes ss m.pages m.width m.height (!m.helpShowAll)) ∧
    (∀ p : ε, (teaUpdate d u ss cn m (.keyOther p)).1.pages
        = m.pages.set m.active (u (m.pages.getD m.active d) (.keyOther p))) ∧
    (∀ (i : Nat) (p : ε),
      (teaUpdate d u ss cn m (.effectResult i p)).1.active = m.active ∧
      (teaUpdate d u ss cn m (.effectResult i p)).1.pages
        = m.pages.set m.active (u (m.pages.getD m.active d) (.effectResult i p))) ∧
    (∀ (i : Nat) (p : ε) (j : Nat), j ≠ m.active →
      (teaUpdate d u ss cn m (.effectResult i p)).1.pages.get? j = m.pages.get? j) ∧
    (∀ (k : NavKey) (j : Nat), j ≠ (teaUpdate d u ss cn m (.keyNav k)).1.active →
      (teaUpdate d u ss cn m (.keyNav k)).1.pages.get? j = m.pages.get? j) := by
  refine ⟨⟨rfl, rfl, rfl⟩, fun p => rfl, fun i p => ⟨rfl, rfl⟩, ?_, ?_⟩
  · intro i p j hj
    show (m.pages.set m.active (u (m.pages.getD m.active d) (.effectResult i p))).get? j
        = m.pages.get? j
    simp only [List.get?_eq_getElem?]
    exact List.getElem?_set_ne (fun he => hj he.symm)
  · intro k j hj
    have hact : (teaUpdate d u ss cn m (.keyNav k)).1.active
        = (if cn (m.pages.getD m.active d) then m.active
           else paginatorStep m.active m.pages.length k) := rfl
    rw [hact] at hj
    show (m.pages.set
        (if cn (m.pages.getD m.active d) then m.active
         else paginatorStep m.active m.pages.length k) _).get? j = m.pages.get? j
    simp only [List.get?_eq_getElem?]
    exact List.getElem?_set_ne (fun he => hj he.symm)

/-- C10 witness: with three pages and page 1 active, an effect result
issued by page 0 (which the user navigated away from) is delivered to the
active page 1, and page 0's state is untouched. -/
theorem active_page_only_dispatch_witness :
    (teaUpdate (0 : Nat) (fun s _ => s + 1) (fun s _ _ => s) (fun _ => false)
      ⟨[10, 20, 30], 1, false, 80, 24⟩ (.effectResult (ε := Unit) 0 ())).1.pages.get? 0
      = some 10 ∧
    (teaUpdate (0 : Nat) (fun s _ => s + 1) (fun s _ _ => s) (fun _ => false)
      ⟨[10, 20, 30], 1, false, 80, 24⟩ (.effectResult (ε := Unit) 0 ())).1.pages
      = [10, 21, 30] := by
  have h := active_page_only_dispatch (ε := Unit) (0 : Nat) (fun s _ => s + 1)
    (fun s _ _ => s) (fun _ => false) ⟨[10, 20, 30], 1, false, 80, 24⟩
  refine ⟨?_, ?_⟩
  · have h0 := h.2.2.2.1 0 () 0 (by decide)
    simpa using h0
  · have h1 := (h.2.2.1 0 ()).2
    simpa using h1

/-! ### Lemmas for the optimistic-toggle rollback (C3) -/

/-- Updating one key of a completion map changes exactly that key's
lookup. -/
theorem lookupCompletion_setCompletion (cs : List (String × Bool)) (d d' : String)
    (b : Bool) :
    lookupCompletion (setCompletion cs d b) d' =
      if d' = d then b else lookupCompletion cs d' := by
  induction cs with
  | nil =>
      by_cases h : d' = d <;> simp [setCompletion, lookupCompletion, h, Ne.symm]
  | cons kv rest ih =>
      by_cases hk : kv.1 = d
      · by_cases h' : d' = d
        · simp_all [setCompletion, lookupCompletion]
        · have hd : d ≠ d' := fun he => h' he.symm
          simp [setCompletion, lookupCompletion, hk, h', hd]
      · by_cases hk' : kv.1 = d'
        · have h' : d' ≠ d := fun he => hk (he ▸ hk')
          simp [setCompletion, lookupCompletion, hk, hk', h']
        · simp [setCompletion, lookupCompletion, hk, hk', ih]

/-- Rolling back a task id that is absent from the list is a no-op
(Today page). -/
theorem todayRollback_absent (l : List Task) (tid : String) (c : Bool)
    (h : ∀ u ∈ l, u.id ≠ tid) : todayRollback l tid c = l := by
  induction l with
  | nil => rfl
  | cons t rest ih =>
      have ht : t.id ≠ tid := h t (List.mem_cons_self _ _)
      simp only [todayRollback, if_neg ht]
      rw [ih (fun u hu => h u (List.mem_cons_of_mem _ hu))]

/-- Rolling back a task id that is absent from the list is a no-op
(History page). -/
theorem historyRollback_absent (l : List HistoryTask) (tid date : String) (c : Bool)
    (h : ∀ u ∈ l, u.id ≠ tid) : historyRollback l tid date c = l := by
  induction l with
  | nil => rfl
  | cons t rest ih =>
      have ht : t.id ≠ tid := h t (List.mem_cons_self _ _)
      simp only [historyRollback, if_neg ht]
      rw [ih (fun u hu => h u (List.mem_cons_of_mem _ hu))]

/-- The rollback flips the displayed value of the first task with the
rolled-back id to the negation of the attempted value. -/
theorem taskCompletedByID_todayRollback_self (l : List Task) (tid : String) (c : Bool) :
    taskCompletedByID (todayRollback l tid c) tid
      = (taskCompletedByID l tid).map (fun _ => !c) := by
  induction l with
  | nil => rfl
  | cons t rest ih =>
      by_cases ht : t.id = tid
      · simp [todayRollback, taskCompletedByID, ht]
      · simp [todayRollback, taskCompletedByID, ht, ih]

/-- The rollback leaves the displayed value of every other id unchanged. -/
theorem taskCompletedByID_todayRollback_other (l : List Task) (tid tid' : String)
    (c : Bool) (h : tid' ≠ tid) :
    taskCompletedByID (todayRollback l tid c) tid'
      = taskCompletedByID l tid' := by
  induction l with
  | nil => rfl
  | cons t rest ih =>
      have h3 : tid ≠ tid' := fun he => h he.symm
      by_cases ht : t.id = tid
      · have ht' : t.id ≠ tid' := fun he => h3 (ht ▸ he)
        simp [todayRollback, taskCompletedByID, ht, ht', h, h3]
      · by_cases ht' : t.id = tid' <;>
          simp [todayRollback, taskCompletedByID, ht, ht', h, h3, ih]

/-- With pairwise-distinct ids, the displayed value of a member's id is
that member's flag. -/
theorem taskCompletedByID_of_mem (l : List Task) (t : Task)
    (hmem : t ∈ l) (hnodup : (l.map Task.id).Nodup) :
    taskCompletedByID l t.id = some t.completed := by
  induction l with
  | nil => simp at hmem
  | cons t0 rest ih =>
      rcases List.nodup_cons.mp hnodup with ⟨hnotin, hnd⟩
      by_cases h0 : t0.id = t.id
      · have ht0 : t = t0 := by
          rcases List.mem_cons.mp hmem with h | h
          · exact h
          · exact absurd (h0 ▸ List.mem_map_of_mem Task.id h) hnotin
        simp [taskCompletedByID, h0, ht0]
      · have hmem' : t ∈ rest := by
          rcases List.mem_cons.mp hmem with h | h
          · exact absurd (congrArg Task.id h.symm) h0
          · exact h
        simpa [taskCompletedByID, h0] using ih hmem' hnd

/-- If no member carries the id, the displayed value is `none`. -/
theorem taskCompletedByID_of_absent (l : List Task) (tid : String)
    (h : ∀ u ∈ l, u.id ≠ tid) : taskCompletedByID l tid = none := by
  induction l with
  | nil => rfl
  | cons t rest ih =>
      have ht : t.id ≠ tid := h t (List.mem_cons_self _ _)
      simpa [taskCompletedByID, ht] using ih (fun u hu => h u (List.mem_cons_of_mem _ hu))

/-- Permuting a list with pairwise-distinct ids does not change any
displayed value. -/
theorem taskCompletedByID_perm (l l' : List Task) (hp : l.Perm l')
    (hnodup : (l.map Task.id).Nodup) (tid : String) :
    taskCompletedByID l tid = taskCompletedByID l' tid := by
  by_cases hex : ∃ u ∈ l, u.id = tid
  · obtain ⟨u, hu, hid⟩ := hex
    have hnodup' : (l'.map Task.id).Nodup := ((hp.map Task.id).nodup_iff).mp hnodup
    have h1 := taskCompletedByID_of_mem l u hu hnodup
    have h2 := taskCompletedByID_of_mem l' u (hp.mem_iff.mp hu) hnodup'
    rw [hid] at h1 h2
    rw [h1, h2]
  · push_neg at hex
    have h1 := taskCompletedByID_of_absent l tid hex
    have h2 := taskCompletedByID_of_absent l' tid
      (fun u hu => hex u (hp.mem_iff.mpr hu))
    rw [h1, h2]

/-- The stable completion-sort is a permutation of its input. -/
theorem sortTasksByCompletion_perm (l : List Task) :
    (sortTasksByCompletion l).Perm l := by
  unfold sortTasksByCompletion
  have h := List.filter_append_perm (fun t : Task => !t.completed) l
  simpa [Bool.not_not] using h

/-- Writing any element at an occupied index keeps the written element a
member. -/
theorem mem_set_of_get_some {α : Type} :
    ∀ (l : List α) (i : Nat) (t x : α), l.get? i = some t → x ∈ l.set i x
  | [], i, t, x, h => by simp at h
  | a :: l, 0, t, x, h => by simp
  | a :: l, i + 1, t, x, h => by
      simp only [List.set_cons_succ]
      exact List.mem_cons_of_mem _ (mem_set_of_get_some l i t x (by simpa using h))

/-- Overwriting an index with an element of the same id leaves the id list
unchanged. -/
theorem map_id_set_same {α β : Type} (f : α → β) :
    ∀ (l : List α) (i : Nat) (t x : α), l.get? i = some t → f x = f t →
      (l.set i x).map f = l.map f
  | [], i, t, x, h, hf => by simp at h
  | a :: l, 0, t, x, h, hf => by
      have : t = a := by simpa using h.symm
      subst this
      simp [hf]
  | a :: l, i + 1, t, x, h, hf => by
      simp only [List.set_cons_succ, List.map_cons]
      rw [map_id_set_same f l i t x (by simpa using h) hf]

/-- Overwriting an index with an element of the same id leaves every other
id's displayed value unchanged. -/
theorem taskCompletedByID_set_other :
    ∀ (l : List Task) (i : Nat) (t x : Task) (tid : String),
      l.get? i = some t → x.id = t.id → tid ≠ t.id →
      taskCompletedByID (l.set i x) tid = taskCompletedByID l tid
  | [], i, t, x, tid, h, hx, hne => by simp at h
  | a :: l, 0, t, x, tid, h, hx, hne => by
      have hta : t = a := by simpa using h.symm
      subst hta
      have h1 : x.id ≠ tid := by
        rw [hx]
        exact fun he => hne he.symm
      have h2 : t.id ≠ tid := fun he => hne he.symm
      simp [taskCompletedByID, h1, h2]
  | a :: l, i + 1, t, x, tid, h, hx, hne => by
      simp only [List.set_cons_succ]
      by_cases ha : a.id = tid
      · simp [taskCompletedByID, ha]
      · simp only [taskCompletedByID, if_neg ha]
        exact taskCompletedByID_set_other l i t x tid (by simpa using h) hx hne

/-- The Today page's optimistic toggle followed by the failure-message
rollback restores every displayed completion value. -/
theorem today_toggle_rollback_byID
    (items : List Task) (idx : Nat) (t : Task)
    (hget : items.get? idx = some t)
    (hnodup : (items.map Task.id).Nodup) :
    (todayToggle items idx).2 = some (t.id, !t.completed) ∧
    ∀ tid, taskCompletedByID
        (todayRollback (todayToggle items idx).1 t.id (!t.completed)) tid
      = taskCompletedByID items tid := by
  have hget' : items[idx]? = some t := by
    rw [← List.get?_eq_getElem?]
    exact hget
  have htoggle1 : (todayToggle items idx).1
      = sortTasksByCompletion (items.set idx t.toggleCompleted) := by
    simp [todayToggle, hget']
  constructor
  · simp [todayToggle, hget', Task.toggleCompleted]
  · intro tid
    have hsetmap : ((items.set idx t.toggleCompleted).map Task.id) = items.map Task.id :=
      map_id_set_same Task.id items idx t t.toggleCompleted hget rfl
    have hsetnodup : ((items.set idx t.toggleCompleted).map Task.id).Nodup := by
      rw [hsetmap]; exact hnodup
    have hperm : (sortTasksByCompletion (items.set idx t.toggleCompleted)).Perm
        (items.set idx t.toggleCompleted) :=
      sortTasksByCompletion_perm _
    have hsortnodup :
        ((sortTasksByCompletion (items.set idx t.toggleCompleted)).map Task.id).Nodup :=
      ((hperm.map Task.id).nodup_iff).mpr hsetnodup
    have hsortval : ∀ s, taskCompletedByID
        (sortTasksByCompletion (items.set idx t.toggleCompleted)) s
        = taskCompletedByID (items.set idx t.toggleCompleted) s :=
      fun s => taskCompletedByID_perm _ _ hperm hsortnodup s
    rw [htoggle1]
    by_cases htid : tid = t.id
    · subst htid
      rw [taskCompletedByID_todayRollback_self, hsortval]
      have hmem : t.toggleCompleted ∈ items.set idx t.toggleCompleted :=
        mem_set_of_get_some items idx t t.toggleCompleted hget
      have h1 : taskCompletedByID (items.set idx t.toggleCompleted)
          t.toggleCompleted.id = some t.toggleCompleted.completed :=
        taskCompletedByID_of_mem _ _ hmem hsetnodup
      have h2 : taskCompletedByID items t.id = some t.completed :=
        taskCompletedByID_of_mem items t (List.get?_mem hget) hnodup
      have hid : t.toggleCompleted.id = t.id := rfl
      rw [hid] at h1
      rw [h1, h2]
      simp [Task.toggleCompleted]
    · rw [taskCompletedByID_todayRollback_other _ _ _ _ htid, hsortval]
      exact taskCompletedByID_set_other items idx t t.toggleCompleted tid hget rfl htid

/-- The History page's optimistic heat-map toggle followed by the
failure-message rollback restores every displayed cell. -/
theorem history_toggle_rollback_cells :
    ∀ (items : List HistoryTask) (idx : Nat) (t : HistoryTask) (date : String),
      items.get? idx = some t →
      (items.map HistoryTask.id).Nodup →
      ∀ tid d,
        historyCellByID
          (historyRollback (historyToggle items idx date).1 t.id date
            (!(lookupCompletion t.completions date))) tid d
          = historyCellByID items tid d := by
  intro items
  induction items with
  | nil => intro idx t date hget; simp at hget
  | cons t0 rest ih =>
      intro idx t date hget hnodup tid d
      cases idx with
      | zero =>
          have hte : t = t0 := by simpa using hget.symm
          subst hte
          have htoggle : historyToggle (t :: rest) 0 date =
              ({ t with completions :=
                  (setCompletion t.completions date (!(lookupCompletion t.completions date))) } :: rest,
               some (t.id, date, !(lookupCompletion t.completions date))) := by
            simp [historyToggle]
          rw [htoggle]
          simp only [historyRollback, if_pos rfl]
          by_cases htid : t.id = tid
          · simp only [historyCellByID, if_pos htid]
            rw [lookupCompletion_setCompletion, lookupCompletion_setCompletion]
            by_cases hd : d = date <;> simp [hd]
          · simp only [historyCellByID, if_neg htid]
      | succ n =>
          have hget' : rest.get? n = some t := by simpa using hget
          have hgetElem : rest[n]? = some t := by
            rw [← List.get?_eq_getElem?]
            exact hget'
          rcases List.nodup_cons.mp hnodup with ⟨hnotin, hnd⟩
          have htmem : t ∈ rest := List.get?_mem hget'
          have hne : t0.id ≠ t.id := by
            intro he
            exact hnotin (he ▸ List.mem_map_of_mem HistoryTask.id htmem)
          have htoggle : (historyToggle (t0 :: rest) (n + 1) date).1
              = t0 :: (historyToggle rest n date).1 := by
            simp [historyToggle, hgetElem]
          rw [htoggle]
          simp only [historyRollback, if_neg hne]
          by_cases htid : t0.id = tid
          · simp only [historyCellByID, if_pos htid]
          · simp only [historyCellByID, if_neg htid]
            exact ih n t date hget' hnd tid d

/-- C3: for both optimistic toggles (Today task completion, History
heat-map cell), the persistence-failure handler locates the entity by key
and sets the toggled field to the negation of the attempted value, so
after toggle followed by rollback every displayed value equals its value
before the toggle; the failure message carries the attempted (new) value;
and when no entity with the key is present the rollback is a no-op. -/
theorem optimistic_toggle_rollback_restores
    (items : List Task) (idx : Nat) (t : Task)
    (hitems : List HistoryTask) (hidx : Nat) (ht : HistoryTask) (date : String)
    (hget : items.get? idx = some t)
    (hnodup : (items.map Task.id).Nodup)
    (hhget : hitems.get? hidx = some ht)
    (hhnodup : (hitems.map HistoryTask.id).Nodup) :
    ((todayToggle items idx).2 = some (t.id, !t.completed) ∧
     ∀ tid, taskCompletedByID
         (todayRollback (todayToggle items idx).1 t.id (!t.completed)) tid
       = taskCompletedByID items tid) ∧
    (∀ tid d, historyCellByID
        (historyRollback (historyToggle hitems hidx date).1 ht.id date
          (!(lookupCompletion ht.completions date))) tid d
      = historyCellByID hitems tid d) ∧
    (∀ (l : List Task) (tid : String) (c : Bool),
      (∀ u ∈ l, u.id ≠ tid) → todayRollback l tid c = l) ∧
    (∀ (l : List HistoryTask) (tid dd : String) (c : Bool),
      (∀ u ∈ l, u.id ≠ tid) → historyRollback l tid dd c = l) :=
  ⟨today_toggle_rollback_byID items idx t hget hnodup,
   history_toggle_rollback_cells hitems hidx ht date hhget hhnodup,
   todayRollback_absent,
   historyRollback_absent⟩

/-- C3 witness: toggling the first of two tasks and rolling back restores
its displayed value, and likewise for a heat-map cell. -/
theorem optimistic_toggle_rollback_restores_witness :
    taskCompletedByID
      (todayRollback (todayToggle [⟨"a", "A", "", false⟩, ⟨"b", "B", "", true⟩] 0).1
        "a" true) "a" = some false ∧
    historyCellByID
      (historyRollback (historyToggle [⟨"h", "H", [("2024-01-01", true)]⟩] 0 "2024-01-01").1
        "h" "2024-01-01" false) "h" "2024-01-01" = some true := by
  have h := optimistic_toggle_rollback_restores
    [⟨"a", "A", "", false⟩, ⟨"b", "B", "", true⟩] 0 ⟨"a", "A", "", false⟩
    [⟨"h", "H", [("2024-01-01", true)]⟩] 0 ⟨"h", "H", [("2024-01-01", true)]⟩
    "2024-01-01" (by decide) (by decide) (by decide) (by decide)
  constructor
  · have h1 := h.1.2 "a"
    simpa using h1
  · have h2 := h.2.1 "h" "2024-01-01"
    simpa using h2

end StetTui
